/-
Verification of the reference-resolution subsystem of the Study Bible
Compendium (src/sbc): the reference parsers (search.py, context.py,
parallel.py), the book resolver built from the canon mapping, the verse
store accessor queries, and the query façades `search_verses`,
`get_passage`, `get_verse_window`, `get_parallel_verses`.

Python strings are modelled as `List Char` (`Str`).  Python `str.strip`,
`str.rindex(" ")`, `str.split(sep, 1)`, `int(...)`, `str.lower`/`str.upper`
are modelled by `pyStrip`, `splitLast ' '`, `splitFirst`, `pyInt`,
`lowerStr`/`upperStr` below.  The SQLite table `verses_normalized` is
modelled as a list of `DBRow`; a connection/query failure
(`sqlite3.Error`, caught by every façade) is modelled by the
`VerseStore.failed` state.  The canon dictionary loaded by
`load_canon()` is passed explicitly as an association list (its contents
come from a data file, an environment input).  All façades are total
functions: every failure branch of the Python code returns `[]`, which
the theorems below make explicit.
-/
import Mathlib

namespace SBC

/-- Python strings, modelled as lists of characters. -/
abbrev Str := List Char

/-- Characters removed by Python `str.strip()` (ASCII whitespace). -/
def isPySpace (c : Char) : Bool :=
  c == ' ' || c == '\t' || c == '\n' || c == '\r' ||
  c == Char.ofNat 11 || c == Char.ofNat 12

/-- Python `str.lstrip()`. -/
def pyLStrip (s : Str) : Str := s.dropWhile isPySpace

/-- Python `str.rstrip()`. -/
def pyRStrip (s : Str) : Str := (s.reverse.dropWhile isPySpace).reverse

/-- Python `str.strip()`. -/
def pyStrip (s : Str) : Str := pyRStrip (pyLStrip s)

/-- Split a string at the LAST occurrence of `c` (Python
`s.rindex(c)` followed by slicing `s[:i]` / `s[i+1:]`); `none` when `c`
does not occur (the `ValueError` branch of `rindex`). -/
def splitLast (c : Char) : Str → Option (Str × Str)
  | [] => none
  | a :: rest =>
    match splitLast c rest with
    | some (l, r) => some (a :: l, r)
    | none => if a = c then some ([], rest) else none

/-- Split a string at the FIRST occurrence of `c` (Python
`s.split(c, 1)` guarded by a `c in s` check); `none` when `c` does not
occur. -/
def splitFirst (c : Char) : Str → Option (Str × Str)
  | [] => none
  | a :: rest =>
    if a = c then some ([], rest)
    else
      match splitFirst c rest with
      | some (l, r) => some (a :: l, r)
      | none => none

/-- Numeric value of a decimal digit character. -/
def digitVal (c : Char) : Nat := c.toNat - 48

/-- Value of a non-empty all-digit string; `none` otherwise. -/
def digitsToNat (s : Str) : Option Nat :=
  if s = [] then none
  else if s.all Char.isDigit then
    some (s.foldl (fun a c => 10 * a + digitVal c) 0)
  else none

/-- Python `int(s)` on a string: surrounding whitespace ignored, optional
single sign, then a non-empty run of decimal digits; `none` models the
`ValueError` branch. -/
def pyInt (s : Str) : Option Int :=
  match pyStrip s with
  | [] => none
  | c :: rest =>
    if c = '-' then (digitsToNat rest).map (fun n => -(n : Int))
    else if c = '+' then (digitsToNat rest).map (fun n => (n : Int))
    else (digitsToNat (c :: rest)).map (fun n => (n : Int))

/-- Python `str.lower()` on one character, restricted to ASCII (the only
characters that occur in canon codes/names and translation codes):
`'A'..'Z'` (65..90) map down by 32, everything else is unchanged. -/
def pyLowerChar (c : Char) : Char :=
  if 65 ≤ c.toNat ∧ c.toNat ≤ 90 then Char.ofNat (c.toNat + 32) else c

/-- Python `str.upper()` on one character, restricted to ASCII:
`'a'..'z'` (97..122) map up by 32, everything else is unchanged. -/
def pyUpperChar (c : Char) : Char :=
  if 97 ≤ c.toNat ∧ c.toNat ≤ 122 then Char.ofNat (c.toNat - 32) else c

/-- `str.lower()` on a whole string. -/
def lowerStr (s : Str) : Str := s.map pyLowerChar

/-- `str.upper()` on a whole string. -/
def upperStr (s : Str) : Str := s.map pyUpperChar

/-! ## Reference parsers -/

/-- `sbc.search._parse_reference` (src/sbc/search.py lines 124-173).
Parses `'John 3:16-18'` or `'Gen 1:1'` into
`(book_str, chapter, verse_start, verse_end)`; `none` models the
`return None` branches (logged as warnings in the source). -/
def parseReference (ref : Str) : Option (Str × Int × Int × Int) :=
  if pyStrip ref = [] then none
  else
    match splitLast ' ' (pyStrip ref) with
    | none => none
    | some (bookRaw, cvRaw) =>
      match splitFirst ':' (pyStrip cvRaw) with
      | none => none
      | some (chapStr, versePart) =>
        match pyInt chapStr with
        | none => none
        | some chapter =>
          match splitFirst '-' (pyStrip versePart) with
          | some (startStr, endStr) =>
            match pyInt (pyStrip startStr), pyInt (pyStrip endStr) with
            | some vStart, some vEnd =>
              some (pyStrip bookRaw, chapter, vStart, vEnd)
            | _, _ => none
          | none =>
            match pyInt (pyStrip versePart) with
            | some v => some (pyStrip bookRaw, chapter, v, v)
            | none => none

/-- `sbc.parallel._parse_reference_range` (src/sbc/parallel.py lines
47-95).  Source-identical to `sbc.search._parse_reference` except that
the chapter component is explicitly stripped before `int()` (a no-op,
since `int` ignores surrounding whitespace); kept as its own definition
to mirror the duplicated source. -/
def parseReferenceRange (ref : Str) : Option (Str × Int × Int × Int) :=
  if pyStrip ref = [] then none
  else
    match splitLast ' ' (pyStrip ref) with
    | none => none
    | some (bookRaw, cvRaw) =>
      match splitFirst ':' (pyStrip cvRaw) with
      | none => none
      | some (chapStr, versePart) =>
        match pyInt (pyStrip chapStr) with
        | none => none
        | some chapter =>
          match splitFirst '-' (pyStrip versePart) with
          | some (startStr, endStr) =>
            match pyInt (pyStrip startStr), pyInt (pyStrip endStr) with
            | some vStart, some vEnd =>
              some (pyStrip bookRaw, chapter, vStart, vEnd)
            | _, _ => none
          | none =>
            match pyInt (pyStrip versePart) with
            | some v => some (pyStrip bookRaw, chapter, v, v)
            | none => none

/-- `sbc.context._parse_reference` (src/sbc/context.py lines 49-85).
Single-verse variant used by the context-window façade: parses
`'John 3:16'` into `(book_str, chapter, verse)`; no range support. -/
def parseReferenceCtx (ref : Str) : Option (Str × Int × Int) :=
  if pyStrip ref = [] then none
  else
    match splitLast ' ' (pyStrip ref) with
    | none => none
    | some (bookRaw, cvRaw) =>
      match splitFirst ':' (pyStrip cvRaw) with
      | none => none
      | some (chapStr, verseStr) =>
        match pyInt (pyStrip chapStr), pyInt (pyStrip verseStr) with
        | some chapter, some verse => some (pyStrip bookRaw, chapter, verse)
        | _, _ => none

/-! ## Canon and book resolution -/

/-- One value of the canon dictionary built by `sbc.loader.load_canon`
(src/sbc/loader.py lines 51-75): `{"code": ..., "name": ..., "testament": ...}`. -/
structure CanonEntry where
  code : Str
  name : Str
  testament : Str
  deriving DecidableEq, Repr

/-- The canon mapping `book_num -> entry` returned by `load_canon()`,
as an association list in insertion order (Python dicts preserve
insertion order; repeated keys overwrite, so lookups take the LAST
binding).  Its contents come from `data/canon.json`, an environment
input, so façades receive it as a parameter.  `[]` models the empty
dictionary returned when `canon.json` is missing. -/
abbrev Canon := List (Nat × CanonEntry)

/-- Python dict lookup on a string-keyed association list written in
insertion order: the LAST binding for a key wins. -/
def dictGet (d : List (Str × Nat)) (k : Str) : Option Nat :=
  (d.reverse.find? (fun p => decide (p.1 = k))).map (·.2)

/-- Python dict lookup for the canon itself (`canon[num]`); façades only
call it with a key produced by the resolver, hence present. -/
def canonGet (canon : Canon) (num : Nat) : CanonEntry :=
  (((canon.reverse.find? (fun p => decide (p.1 = num))).map (·.2)).getD
    ⟨[], [], []⟩)

/-- `_build_book_lookup` (src/sbc/search.py lines 30-47; duplicated
verbatim in context.py, parallel.py, loader.py): for each canon entry,
binds the code, lowercased code, name and lowercased name to the book
number.  The Python `for key in {...}` set iterates in an unspecified
order, but every key of the set maps to the same number, so the
resulting dict does not depend on that order. -/
def buildBookLookup (canon : Canon) : List (Str × Nat) :=
  canon.foldl
    (fun acc e =>
      acc ++ [(e.2.code, e.1), (lowerStr e.2.code, e.1),
              (e.2.name, e.1), (lowerStr e.2.name, e.1)])
    []

/-- The book-resolution loop shared by the façades (src/sbc/search.py
lines 208-212, context.py 124-128, parallel.py 134-138) and by
`sbc.loader._resolve_book` (loader.py lines 98-117):
`for key in (book_str, book_str.lower()): if key in book_lookup: ...` —
exact match first, lowercased fallback second. -/
def resolveBookNum (lookup : List (Str × Nat)) (book : Str) : Option Nat :=
  match dictGet lookup book with
  | some num => some num
  | none => dictGet lookup (lowerStr book)

/-! ## Verse store -/

/-- One row of the `verses_normalized` table as selected by the query
façades: `(translation_code, book_num, book_code, chapter, verse, text)`
(the `VerseRow` shape of src/sbc/search.py line 27). -/
structure DBRow where
  translation : Str
  bookNum : Nat
  bookCode : Str
  chapter : Int
  verse : Int
  text : Str
  deriving DecidableEq, Repr

/-- The verse store reached through `sbc.db.get_conn`: either a readable
table, or the failure state in which any statement raises
`sqlite3.Error` (missing/uninitialized database file, bad query). -/
inductive VerseStore where
  | ok (db : List DBRow)
  | failed
  deriving DecidableEq, Repr

/-- SQLite `BINARY` text comparison (memcmp of the encoded bytes, which
on code points coincides with code-point order): `a <= b`. -/
def strLeb : Str → Str → Bool
  | [], _ => true
  | _ :: _, [] => false
  | a :: s, b :: t =>
    if a.toNat < b.toNat then true
    else if b.toNat < a.toNat then false
    else strLeb s t

/-- Strict version of `strLeb`. -/
def strLtb (s t : Str) : Bool := strLeb s t && !(decide (s = t))

/-- Row order of `ORDER BY verse` (src/sbc/search.py line 236,
context.py line 155). -/
def passageLe (a b : DBRow) : Prop := a.verse ≤ b.verse

instance : DecidableRel passageLe :=
  fun a b => inferInstanceAs (Decidable (a.verse ≤ b.verse))

instance : IsTotal DBRow passageLe := ⟨fun a b => Int.le_total a.verse b.verse⟩

instance : IsTrans DBRow passageLe := ⟨fun _ _ _ hab hbc => le_trans hab hbc⟩

/-- Row order of `ORDER BY verse, translation_code`
(src/sbc/parallel.py line 160). -/
def parallelLe (a b : DBRow) : Prop :=
  a.verse < b.verse ∨ (a.verse = b.verse ∧ strLeb a.translation b.translation = true)

instance : DecidableRel parallelLe :=
  fun a b => inferInstanceAs (Decidable (a.verse < b.verse ∨
    (a.verse = b.verse ∧ strLeb a.translation b.translation = true)))

/-- Row order of `ORDER BY translation_code, book_num, chapter, verse`
(src/sbc/search.py lines 94, 110). -/
def searchLe (a b : DBRow) : Prop :=
  strLtb a.translation b.translation = true ∨
    (a.translation = b.translation ∧
      (a.bookNum < b.bookNum ∨
        (a.bookNum = b.bookNum ∧
          (a.chapter < b.chapter ∨
            (a.chapter = b.chapter ∧ a.verse ≤ b.verse)))))

instance : DecidableRel searchLe :=
  fun a b => inferInstanceAs (Decidable (strLtb a.translation b.translation = true ∨
    (a.translation = b.translation ∧
      (a.bookNum < b.bookNum ∨
        (a.bookNum = b.bookNum ∧
          (a.chapter < b.chapter ∨
            (a.chapter = b.chapter ∧ a.verse ≤ b.verse)))))))

/-- The passage/context verse-store query (src/sbc/search.py lines
221-240, context.py lines 140-159): `SELECT ... WHERE translation_code =
? AND book_num = ? AND chapter = ? AND verse BETWEEN ? AND ? ORDER BY
verse`. -/
def passageQuery (db : List DBRow) (t : Str) (num : Nat)
    (chapter vStart vEnd : Int) : List DBRow :=
  List.insertionSort passageLe
    (db.filter (fun r =>
      decide (r.translation = t ∧ r.bookNum = num ∧ r.chapter = chapter ∧
        vStart ≤ r.verse ∧ r.verse ≤ vEnd)))

/-- The parallel verse-store query (src/sbc/parallel.py lines 147-169):
`SELECT ... WHERE translation_code IN (...) AND book_num = ? AND chapter
= ? AND verse BETWEEN ? AND ? ORDER BY verse, translation_code`. -/
def parallelQuery (db : List DBRow) (tcs : List Str) (num : Nat)
    (chapter vStart vEnd : Int) : List DBRow :=
  List.insertionSort parallelLe
    (db.filter (fun r =>
      decide (r.translation ∈ tcs ∧ r.bookNum = num ∧ r.chapter = chapter ∧
        vStart ≤ r.verse ∧ r.verse ≤ vEnd)))

/-! ## Façades -/

/-- `sbc.search.get_passage` (src/sbc/search.py lines 176-246).  Every
failure branch of the source (unparsable reference, empty canon,
unresolvable book, `sqlite3.Error`) returns `[]` after a logged
warning; the function itself never raises. -/
def get_passage (canon : Canon) (store : VerseStore) (ref : Str)
    (translationCode : Str) : List DBRow :=
  match parseReference ref with
  | none => []
  | some (book, chapter, vStart, vEnd) =>
    if canon = [] then []
    else
      match resolveBookNum (buildBookLookup canon) book with
      | none => []
      | some num =>
        match store with
        | .failed => []
        | .ok db => passageQuery db (upperStr translationCode) num chapter vStart vEnd

/-- Lower bound of the context window: `v_start = max(1, center_verse -
before)` (src/sbc/context.py line 137). -/
def windowStart (center before : Int) : Int := max 1 (center - before)

/-- Upper bound of the context window: `v_end = center_verse + after`
(src/sbc/context.py line 138). -/
def windowEnd (center after : Int) : Int := center + after

/-- `sbc.context.get_verse_window` (src/sbc/context.py lines 88-165). -/
def get_verse_window (canon : Canon) (store : VerseStore) (ref : Str)
    (translationCode : Str) (before after : Int) : List DBRow :=
  match parseReferenceCtx ref with
  | none => []
  | some (book, chapter, center) =>
    if canon = [] then []
    else
      match resolveBookNum (buildBookLookup canon) book with
      | none => []
      | some num =>
        match store with
        | .failed => []
        | .ok db =>
          passageQuery db (upperStr translationCode) num chapter
            (windowStart center before) (windowEnd center after)

/-- One result record of the parallel façade: the `ParallelRow` tuple
`(book_code, chapter, verse, texts_by_translation)` of
src/sbc/parallel.py line 26; the texts dict is an association list in
insertion order (lookups take the last binding). -/
structure ParallelRow where
  bookCode : Str
  chapter : Int
  verse : Int
  texts : List (Str × Str)
  deriving DecidableEq, Repr

/-- Python dict `texts.get(code)` on a per-verse texts mapping. -/
def textsGet (texts : List (Str × Str)) (code : Str) : Option Str :=
  (texts.reverse.find? (fun p => decide (p.1 = code))).map (·.2)

/-- Insert `code -> text` into the mapping held for verse `v` of the
verse map, creating the verse entry if absent — the
`verse_map.setdefault(verse, {}); mapping[t_code] = text` step of
src/sbc/parallel.py lines 179-184. -/
def vmInsert (vm : List (Int × List (Str × Str))) (v : Int)
    (code text : Str) : List (Int × List (Str × Str)) :=
  match vm with
  | [] => [(v, [(code, text)])]
  | (v', m) :: rest =>
    if v' = v then (v', m ++ [(code, text)]) :: rest
    else (v', m) :: vmInsert rest v code text

/-- The `verse -> {code: text}` map built from the fetched rows,
skipping rows whose chapter differs (src/sbc/parallel.py lines 179-184;
the skip is vacuous given the SQL filter but mirrored anyway). -/
def buildVerseMap (chapter : Int) (rows : List DBRow) :
    List (Int × List (Str × Str)) :=
  rows.foldl
    (fun vm r =>
      if r.chapter ≠ chapter then vm
      else vmInsert vm r.verse r.translation r.text)
    []

/-- `verse_map.get(verse, {})` (src/sbc/parallel.py line 189); keys are
unique by construction of `vmInsert`, so first-match lookup is the dict
lookup. -/
def vmGet (vm : List (Int × List (Str × Str))) (v : Int) :
    List (Str × Str) :=
  ((vm.find? (fun p => decide (p.1 = v))).map (·.2)).getD []

/-- Python `range(v_start, v_end + 1)` over integers, as a list. -/
def pyRange (lo hi : Int) : List Int :=
  (List.range (hi - lo).toNat).map (fun i => lo + Int.ofNat i)

/-- `sbc.parallel.get_parallel_verses` (src/sbc/parallel.py lines
98-192). -/
def get_parallel_verses (canon : Canon) (store : VerseStore) (ref : Str)
    (translationCodes : List Str) : List ParallelRow :=
  if translationCodes.map upperStr = [] then []
  else
    match parseReferenceRange ref with
    | none => []
    | some (book, chapter, vStart, vEnd) =>
      if canon = [] then []
      else
        match resolveBookNum (buildBookLookup canon) book with
        | none => []
        | some num =>
          match store with
          | .failed => []
          | .ok db =>
            if parallelQuery db (translationCodes.map upperStr) num chapter
                vStart vEnd = [] then []
            else
              (pyRange vStart (vEnd + 1)).map
                (fun v => ⟨(canonGet canon num).code, chapter, v,
                  vmGet (buildVerseMap chapter
                    (parallelQuery db (translationCodes.map upperStr) num
                      chapter vStart vEnd)) v⟩)

/-- The documented missing-translation placeholder of
src/sbc/parallel.py line 227. -/
def missingPlaceholder : Str := "(missing in this translation)".toList

/-- The text printed for translation `code` of one parallel record by
`sbc.parallel.print_parallel` (src/sbc/parallel.py line 227):
`texts.get(code, "(missing in this translation)")`. -/
def parallelDisplayText (texts : List (Str × Str)) (code : Str) : Str :=
  (textsGet texts code).getD missingPlaceholder

/-- SQLite `LIKE` matching (default `case_sensitive_like=OFF`:
ASCII-case-insensitive), fuel-recursive; `%` matches any run, `_` any
single character.  Fuel `pattern.length + text.length + 1` is enough
because every step shrinks the pattern or the text. -/
def likeMatch : Nat → Str → Str → Bool
  | 0, _, _ => false
  | _ + 1, [], t => decide (t = [])
  | f + 1, '%' :: p, t =>
    likeMatch f p t ||
      (match t with
       | [] => false
       | _ :: t' => likeMatch f ('%' :: p) t')
  | f + 1, '_' :: p, t =>
    (match t with
     | [] => false
     | _ :: t' => likeMatch f p t')
  | f + 1, c :: p, t =>
    match t with
    | [] => false
    | d :: t' => decide (pyLowerChar c = pyLowerChar d) && likeMatch f p t'

/-- `text LIKE pattern`. -/
def sqlLike (pat text : Str) : Bool :=
  likeMatch (pat.length + text.length + 1) pat text

/-- `sbc.search.search_verses` (src/sbc/search.py lines 50-121).  The
`if translation_code:` truthiness test treats both `None` and the empty
string as "no filter". -/
def search_verses (store : VerseStore) (query : Str) (lim : Nat)
    (translationCode : Option Str) : List DBRow :=
  let q := pyStrip query
  if q = [] then []
  else
    match store with
    | .failed => []
    | .ok db =>
      let pat := '%' :: q ++ ['%']
      let useFilter := match translationCode with
        | some t => !(decide (t = ([] : Str)))
        | none => false
      let filtered :=
        if useFilter then
          db.filter (fun r =>
            decide (r.translation = upperStr (translationCode.getD [])) &&
              sqlLike pat r.text)
        else db.filter (fun r => sqlLike pat r.text)
      (List.insertionSort searchLe filtered).take lim

/-! ## Concrete fixtures (small canon and verse stores for witnesses) -/

/-- Canon entry for Genesis as in `data/canon.json`. -/
def genEntry : CanonEntry := ⟨"GEN".toList, "Genesis".toList, "OT".toList⟩

/-- Canon entry for John as in `data/canon.json`. -/
def johnEntry : CanonEntry := ⟨"JHN".toList, "John".toList, "NT".toList⟩

/-- A two-book canon (Genesis = 1, John = 43). -/
def testCanon : Canon := [(1, genEntry), (43, johnEntry)]

/-- KJV text of John 3:16 (abbreviated). -/
def kjvJohn316 : Str := "For God so loved the world".toList

/-- A store holding John 3:16 in KJV only — the parallel-comparison
scenario of the spec's testable property. -/
def johnDB : List DBRow :=
  [⟨"KJV".toList, 43, "JHN".toList, 3, 16, kjvJohn316⟩]

/-- A store holding Genesis 1:1-4 in KJV. -/
def genDB : List DBRow :=
  [⟨"KJV".toList, 1, "GEN".toList, 1, 1, "In the beginning".toList⟩,
   ⟨"KJV".toList, 1, "GEN".toList, 1, 2, "And the earth".toList⟩,
   ⟨"KJV".toList, 1, "GEN".toList, 1, 3, "And God said".toList⟩,
   ⟨"KJV".toList, 1, "GEN".toList, 1, 4, "And God saw".toList⟩]

/-- A store for John 3:16-18 in KJV (range and out-of-order tests). -/
def john3DB : List DBRow :=
  [⟨"KJV".toList, 43, "JHN".toList, 3, 16, kjvJohn316⟩,
   ⟨"KJV".toList, 43, "JHN".toList, 3, 17, "For God sent not".toList⟩,
   ⟨"KJV".toList, 43, "JHN".toList, 3, 18, "He that believeth".toList⟩]

/-! ## Helper lemmas: splitting and stripping -/

theorem splitLast_eq_none {c : Char} {s : Str} :
    splitLast c s = none ↔ c ∉ s := by
  induction s with
  | nil => simp [splitLast]
  | cons a t ih =>
    simp only [splitLast, List.mem_cons]
    cases h : splitLast c t with
    | some p =>
      have hct : c ∈ t := by
        by_contra hn
        exact absurd h (by simp [ih.mpr hn])
      simp [hct]
    | none =>
      have hct : c ∉ t := ih.mp h
      by_cases hac : a = c
      · subst hac; simp
      · have hca : ¬ c = a := fun e => hac e.symm
        simp [hac, hct, hca]

theorem splitLast_append {c : Char} {ys : Str} (h : c ∉ ys) :
    ∀ xs : Str, splitLast c (xs ++ c :: ys) = some (xs, ys)
  | [] => by simp [splitLast, splitLast_eq_none.mpr h]
  | x :: xs => by simp [splitLast, splitLast_append h xs]

theorem splitFirst_eq_none {c : Char} {s : Str} :
    splitFirst c s = none ↔ c ∉ s := by
  induction s with
  | nil => simp [splitFirst]
  | cons a t ih =>
    simp only [splitFirst, List.mem_cons]
    by_cases hac : a = c
    · subst hac; simp
    · cases h : splitFirst c t with
      | some p =>
        have hct : c ∈ t := by
          by_contra hn
          exact absurd h (by simp [ih.mpr hn])
        simp [hac, hct]
      | none =>
        have hct : c ∉ t := ih.mp h
        have hca : ¬ c = a := fun e => hac e.symm
        simp [hac, hct, hca]

theorem splitFirst_append {c : Char} {ys : Str} :
    ∀ {xs : Str}, c ∉ xs → splitFirst c (xs ++ c :: ys) = some (xs, ys)
  | [], _ => by simp [splitFirst]
  | x :: xs, h => by
    have hx : ¬ x = c := fun e => h (by simp [e])
    have hxs : c ∉ xs := fun e => h (by simp [e])
    simp [splitFirst, hx, splitFirst_append hxs]

theorem dropWhile_eq_self {p : Char → Bool} :
    ∀ {l : Str}, (∀ c ∈ l, p c = false) → l.dropWhile p = l
  | [], _ => rfl
  | a :: t, h => by simp [List.dropWhile_cons, h a (by simp)]

theorem pyStrip_of_no_space {l : Str}
    (h : ∀ c ∈ l, isPySpace c = false) : pyStrip l = l := by
  have h1 : pyLStrip l = l := dropWhile_eq_self h
  have h2 : pyRStrip l = l := by
    unfold pyRStrip
    rw [dropWhile_eq_self (fun c hc => h c (List.mem_reverse.mp hc)),
      List.reverse_reverse]
  rw [pyStrip, h1, h2]

theorem pyRStrip_append {ys : Str} (hne : ys ≠ [])
    (h : ∀ c ∈ ys, isPySpace c = false) (xs : Str) :
    pyRStrip (xs ++ ys) = xs ++ ys := by
  unfold pyRStrip
  rw [List.reverse_append]
  obtain ⟨a, t, hrev⟩ : ∃ a t, ys.reverse = a :: t := by
    cases hr : ys.reverse with
    | nil => exact absurd (by simpa using congrArg List.reverse hr) hne
    | cons a t => exact ⟨a, t, rfl⟩
  have ha : isPySpace a = false :=
    h a (by rw [← List.mem_reverse, hrev]; simp)
  rw [hrev, List.cons_append, List.dropWhile_cons, ha]
  simp only [Bool.false_eq_true, if_false]
  rw [← List.cons_append, ← hrev, ← List.reverse_append, List.reverse_reverse]

theorem pyLStrip_of_no_space {l : Str}
    (h : ∀ c ∈ l, isPySpace c = false) : pyLStrip l = l :=
  dropWhile_eq_self h

theorem pyRStrip_of_no_space {l : Str}
    (h : ∀ c ∈ l, isPySpace c = false) : pyRStrip l = l := by
  unfold pyRStrip
  rw [dropWhile_eq_self (fun c hc => h c (List.mem_reverse.mp hc)),
    List.reverse_reverse]

theorem pyLStrip_append_of_nil {xs : Str} (h : pyLStrip xs = [])
    (ys : Str) : pyLStrip (xs ++ ys) = pyLStrip ys := by
  unfold pyLStrip at *
  rw [List.dropWhile_append, h]
  simp

theorem pyLStrip_append_of_ne {xs : Str} (h : pyLStrip xs ≠ [])
    (ys : Str) : pyLStrip (xs ++ ys) = pyLStrip xs ++ ys := by
  unfold pyLStrip at *
  rw [List.dropWhile_append, if_neg (by simpa using h)]

theorem pyLStrip_space_cons (t : Str) : pyLStrip (' ' :: t) = pyLStrip t := by
  unfold pyLStrip
  rw [List.dropWhile_cons, if_pos (by decide)]

theorem dropWhile_idem {p : Char → Bool} :
    ∀ l : Str, (l.dropWhile p).dropWhile p = l.dropWhile p
  | [] => rfl
  | a :: t => by
    by_cases h : p a = true
    · rw [List.dropWhile_cons, if_pos h]
      exact dropWhile_idem t
    · rw [List.dropWhile_cons, if_neg h, List.dropWhile_cons, if_neg h]

theorem pyRStrip_idem (l : Str) : pyRStrip (pyRStrip l) = pyRStrip l := by
  unfold pyRStrip
  rw [List.reverse_reverse, dropWhile_idem]

/-- Unfolding `rstrip` at a cons cell. -/
theorem pyRStrip_cons (a : Char) (t : Str) :
    pyRStrip (a :: t) =
      if pyRStrip t = [] then (if isPySpace a then [] else [a])
      else a :: pyRStrip t := by
  unfold pyRStrip
  rw [List.reverse_cons, List.dropWhile_append]
  by_cases h : (t.reverse.dropWhile isPySpace) = []
  · rw [h]
    simp only [List.isEmpty_nil, if_true, List.reverse_nil]
    by_cases ha : isPySpace a = true
    · simp [List.dropWhile_cons, ha]
    · simp [List.dropWhile_cons, ha]
  · rw [if_neg (by simpa using h), if_neg (by simpa using h)]
    rw [List.reverse_append, List.reverse_cons, List.reverse_nil,
      List.nil_append, List.singleton_append]

/-- If a list has no leading whitespace, stripping its right end leaves
no leading whitespace either. -/
theorem pyLStrip_pyRStrip {l : Str} (h : pyLStrip l = l) :
    pyLStrip (pyRStrip l) = pyRStrip l := by
  cases l with
  | nil => rfl
  | cons a t =>
    have hpa : isPySpace a = false := by
      by_contra hx
      rw [Bool.not_eq_false] at hx
      unfold pyLStrip at h
      rw [List.dropWhile_cons, if_pos hx] at h
      have hlen := congrArg List.length h
      have hle := (List.dropWhile_sublist isPySpace (l := t)).length_le
      simp only [List.length_cons] at hlen
      omega
    rw [pyRStrip_cons]
    by_cases ht : pyRStrip t = []
    · rw [if_pos ht, if_neg (by rw [hpa]; exact Bool.false_ne_true)]
      unfold pyLStrip
      rw [List.dropWhile_cons, if_neg (by rw [hpa]; exact Bool.false_ne_true)]
    · rw [if_neg ht]
      unfold pyLStrip
      rw [List.dropWhile_cons, if_neg (by rw [hpa]; exact Bool.false_ne_true)]

theorem pyStrip_idem (s : Str) : pyStrip (pyStrip s) = pyStrip s := by
  unfold pyStrip
  rw [pyLStrip_pyRStrip
    (show pyLStrip (pyLStrip s) = pyLStrip s by
      unfold pyLStrip; exact dropWhile_idem s),
    pyRStrip_idem]

theorem pyInt_pyStrip (s : Str) : pyInt (pyStrip s) = pyInt s := by
  unfold pyInt
  rw [pyStrip_idem]

/-- The duplicated parser of parallel.py computes the same function as
the one in search.py: its extra `.strip()` on the chapter component is a
no-op because `int()` strips whitespace itself. -/
theorem parseReferenceRange_eq_parseReference (ref : Str) :
    parseReferenceRange ref = parseReference ref := by
  unfold parseReferenceRange parseReference
  simp only [pyInt_pyStrip]

/-! ## Helper lemmas: SQLite string order -/

theorem strLeb_total : ∀ s t : Str, strLeb s t = true ∨ strLeb t s = true
  | [], _ => Or.inl rfl
  | _ :: _, [] => Or.inr rfl
  | a :: s, b :: t => by
    rcases Nat.lt_trichotomy a.toNat b.toNat with h | h | h
    · exact Or.inl (by simp [strLeb, h])
    · have h1 : ¬ a.toNat < b.toNat := by omega
      have h2 : ¬ b.toNat < a.toNat := by omega
      rcases strLeb_total s t with hs | hs
      · exact Or.inl (by simp [strLeb, h1, h2, hs])
      · exact Or.inr (by simp [strLeb, h1, h2, hs])
    · exact Or.inr (by simp [strLeb, h])

theorem strLeb_trans :
    ∀ s t u : Str, strLeb s t = true → strLeb t u = true → strLeb s u = true
  | [], _, _, _, _ => rfl
  | _ :: _, [], _, h1, _ => by simp [strLeb] at h1
  | _ :: _, _ :: _, [], _, h2 => by simp [strLeb] at h2
  | a :: s, b :: t, c :: u, h1, h2 => by
    simp only [strLeb] at h1 h2 ⊢
    by_cases hab : a.toNat < b.toNat
    · have hbc' : b.toNat ≤ c.toNat := by
        by_cases hbc : b.toNat < c.toNat
        · omega
        · by_cases hcb : c.toNat < b.toNat
          · simp [hbc, hcb] at h2
          · omega
      simp [show a.toNat < c.toNat by omega]
    · by_cases hba : b.toNat < a.toNat
      · simp [hab, hba] at h1
      · rw [if_neg hab, if_neg hba] at h1
        by_cases hbc : b.toNat < c.toNat
        · simp [show a.toNat < c.toNat by omega]
        · by_cases hcb : c.toNat < b.toNat
          · simp [hbc, hcb] at h2
          · rw [if_neg hbc, if_neg hcb] at h2
            have h3 : ¬ a.toNat < c.toNat := by omega
            have h4 : ¬ c.toNat < a.toNat := by omega
            rw [if_neg h3, if_neg h4]
            exact strLeb_trans s t u h1 h2

instance : IsTotal DBRow parallelLe :=
  ⟨fun a b => by
    unfold parallelLe
    rcases Int.lt_trichotomy a.verse b.verse with h | h | h
    · exact Or.inl (Or.inl h)
    · rcases strLeb_total a.translation b.translation with hs | hs
      · exact Or.inl (Or.inr ⟨h, hs⟩)
      · exact Or.inr (Or.inr ⟨h.symm, hs⟩)
    · exact Or.inr (Or.inl h)⟩

instance : IsTrans DBRow parallelLe :=
  ⟨fun a b c hab hbc => by
    unfold parallelLe at hab hbc ⊢
    rcases hab with h1 | ⟨e1, s1⟩ <;> rcases hbc with h2 | ⟨e2, s2⟩
    · exact Or.inl (h1.trans h2)
    · exact Or.inl (by omega)
    · exact Or.inl (by omega)
    · exact Or.inr ⟨e1.trans e2, strLeb_trans _ _ _ s1 s2⟩⟩

/-! ## Helper lemmas: decimal digit strings

Used to quantify over all rendered `"<chapter>"` / `"<verse>"`
components when comparing `"b c:v"` with `"b c:v-v"`. -/

/-- The decimal digit character of a value below ten. -/
def digitChar : Nat → Char
  | 0 => '0' | 1 => '1' | 2 => '2' | 3 => '3' | 4 => '4'
  | 5 => '5' | 6 => '6' | 7 => '7' | 8 => '8' | _ => '9'

/-- Fuel-driven decimal rendering (most significant digit first). -/
def natDigitsF : Nat → Nat → Str
  | 0, _ => []
  | f + 1, n =>
    if n < 10 then [digitChar n]
    else natDigitsF f (n / 10) ++ [digitChar (n % 10)]

/-- Decimal rendering of a natural number, e.g. `natDigits 316 = "316"`. -/
def natDigits (n : Nat) : Str := natDigitsF (n + 1) n

theorem digitChar_isDigit {n : Nat} (h : n < 10) :
    (digitChar n).isDigit = true := by
  interval_cases n <;> decide

theorem digitVal_digitChar {n : Nat} (h : n < 10) :
    digitVal (digitChar n) = n := by
  interval_cases n <;> decide

theorem natDigitsF_spec :
    ∀ f n, n < f →
      natDigitsF f n ≠ [] ∧
      (∀ c ∈ natDigitsF f n, c.isDigit = true) ∧
      ∀ a : Nat,
        (natDigitsF f n).foldl (fun x c => 10 * x + digitVal c) a =
          a * 10 ^ (natDigitsF f n).length + n
  | 0, n, h => absurd h (by omega)
  | f + 1, n, h => by
    by_cases h10 : n < 10
    · refine ⟨by simp [natDigitsF, h10], ?_, ?_⟩
      · intro c hc
        simp only [natDigitsF, if_pos h10, List.mem_singleton] at hc
        subst hc
        exact digitChar_isDigit h10
      · intro a
        simp [natDigitsF, h10, digitVal_digitChar h10]
        ring
    · have hf : n / 10 < f := by omega
      obtain ⟨hne, hdig, hval⟩ := natDigitsF_spec f (n / 10) hf
      have harm : natDigitsF (f + 1) n =
          natDigitsF f (n / 10) ++ [digitChar (n % 10)] := by
        simp [natDigitsF, h10]
      refine ⟨by simp [harm], ?_, ?_⟩
      · intro c hc
        rw [harm] at hc
        rcases List.mem_append.mp hc with hc | hc
        · exact hdig c hc
        · rw [List.mem_singleton] at hc
          subst hc
          exact digitChar_isDigit (by omega)
      · intro a
        rw [harm, List.foldl_append, hval a, List.length_append]
        simp only [List.length_cons, List.length_nil, List.foldl_cons,
          List.foldl_nil]
        rw [digitVal_digitChar (show n % 10 < 10 by omega)]
        have h1 : 10 * (n / 10) + n % 10 = n := by omega
        rw [pow_succ]
        calc 10 * (a * 10 ^ (natDigitsF f (n / 10)).length + n / 10) + n % 10
            = a * (10 ^ (natDigitsF f (n / 10)).length * 10) +
                (10 * (n / 10) + n % 10) := by ring
          _ = _ := by rw [h1]

theorem natDigits_ne_nil (n : Nat) : natDigits n ≠ [] :=
  (natDigitsF_spec (n + 1) n (by omega)).1

theorem natDigits_all_digit (n : Nat) :
    ∀ c ∈ natDigits n, c.isDigit = true :=
  (natDigitsF_spec (n + 1) n (by omega)).2.1

theorem digit_ne {c : Char} (h : c.isDigit = true) {d : Char}
    (hd : d.isDigit = false) : c ≠ d := by
  intro e
  rw [e, hd] at h
  cases h

theorem digit_not_pySpace {c : Char} (h : c.isDigit = true) :
    isPySpace c = false := by
  unfold isPySpace
  have h1 := beq_eq_false_iff_ne.mpr (digit_ne h (show (' ').isDigit = false by decide))
  have h2 := beq_eq_false_iff_ne.mpr (digit_ne h (show ('\t').isDigit = false by decide))
  have h3 := beq_eq_false_iff_ne.mpr (digit_ne h (show ('\n').isDigit = false by decide))
  have h4 := beq_eq_false_iff_ne.mpr (digit_ne h (show ('\r').isDigit = false by decide))
  have h5 := beq_eq_false_iff_ne.mpr (digit_ne h (show (Char.ofNat 11).isDigit = false by decide))
  have h6 := beq_eq_false_iff_ne.mpr (digit_ne h (show (Char.ofNat 12).isDigit = false by decide))
  rw [h1, h2, h3, h4, h5, h6]
  rfl

theorem char_not_mem_natDigits {d : Char} (hd : d.isDigit = false)
    (n : Nat) : d ∉ natDigits n := by
  intro hm
  have := natDigits_all_digit n d hm
  rw [hd] at this
  cases this

theorem digitsToNat_natDigits (n : Nat) :
    digitsToNat (natDigits n) = some n := by
  unfold digitsToNat
  rw [if_neg (natDigits_ne_nil n), if_pos]
  · have := (natDigitsF_spec (n + 1) n (by omega)).2.2 0
    rw [show ((0 : Nat) * 10 ^ (natDigitsF (n + 1) n).length + n) = n by ring] at this
    rw [show natDigits n = natDigitsF (n + 1) n from rfl, this]
  · rw [List.all_eq_true]
    exact fun c hc => natDigits_all_digit n c hc

theorem pyStrip_natDigits (n : Nat) : pyStrip (natDigits n) = natDigits n :=
  pyStrip_of_no_space (fun c hc => digit_not_pySpace (natDigits_all_digit n c hc))

theorem pyInt_natDigits (n : Nat) : pyInt (natDigits n) = some (n : Int) := by
  unfold pyInt
  rw [pyStrip_natDigits]
  obtain ⟨c, rest, hcons⟩ : ∃ c rest, natDigits n = c :: rest := by
    cases h : natDigits n with
    | nil => exact absurd h (natDigits_ne_nil n)
    | cons c rest => exact ⟨c, rest, rfl⟩
  have hcd : c.isDigit = true :=
    natDigits_all_digit n c (by rw [hcons]; exact List.mem_cons_self c rest)
  rw [hcons]
  simp only []
  rw [if_neg (digit_ne hcd (show ('-').isDigit = false by decide)),
    if_neg (digit_ne hcd (show ('+').isDigit = false by decide)),
    ← hcons, digitsToNat_natDigits]
  rfl

/-- For every book token `b` and numerals `c`, `v`, the references
`"b c:v"` and `"b c:v-v"` parse to identical results: the hyphenless
verse part duplicates the single value, while the to-itself range splits
at the hyphen and parses the same value twice. -/
theorem parse_single_eq_self_range (b : Str) (c v : Nat) :
    parseReference (b ++ ' ' :: (natDigits c ++ ':' :: natDigits v)) =
      parseReference (b ++ ' ' ::
        (natDigits c ++ ':' :: (natDigits v ++ '-' :: natDigits v))) := by
  have hwsC : ∀ ch ∈ natDigits c, isPySpace ch = false := fun ch hch =>
    digit_not_pySpace (natDigits_all_digit c ch hch)
  have hwsV : ∀ ch ∈ natDigits v, isPySpace ch = false := fun ch hch =>
    digit_not_pySpace (natDigits_all_digit v ch hch)
  have hwsVD : ∀ ch ∈ natDigits v ++ '-' :: natDigits v,
      isPySpace ch = false := by
    intro ch hch
    rcases List.mem_append.mp hch with h | h
    · exact hwsV ch h
    · rcases List.mem_cons.mp h with rfl | h
      · decide
      · exact hwsV ch h
  have hws1 : ∀ ch ∈ natDigits c ++ ':' :: natDigits v,
      isPySpace ch = false := by
    intro ch hch
    rcases List.mem_append.mp hch with h | h
    · exact hwsC ch h
    · rcases List.mem_cons.mp h with rfl | h
      · decide
      · exact hwsV ch h
  have hws2 : ∀ ch ∈ natDigits c ++ ':' :: (natDigits v ++ '-' :: natDigits v),
      isPySpace ch = false := by
    intro ch hch
    rcases List.mem_append.mp hch with h | h
    · exact hwsC ch h
    · rcases List.mem_cons.mp h with rfl | h
      · decide
      · exact hwsVD ch h
  have hsp1 : ' ' ∉ natDigits c ++ ':' :: natDigits v := fun hm => by
    have := hws1 ' ' hm
    exact absurd this (by decide)
  have hsp2 : ' ' ∉ natDigits c ++ ':' :: (natDigits v ++ '-' :: natDigits v) :=
    fun hm => by
      have := hws2 ' ' hm
      exact absurd this (by decide)
  have hne1 : natDigits c ++ ':' :: natDigits v ≠ [] := by simp
  have hne2 : natDigits c ++ ':' :: (natDigits v ++ '-' :: natDigits v) ≠ [] :=
    by simp
  have hcolonC : ':' ∉ natDigits c :=
    char_not_mem_natDigits (by decide) c
  have hdashV : '-' ∉ natDigits v :=
    char_not_mem_natDigits (by decide) v
  by_cases hb : pyLStrip b = []
  · -- the book part strips away entirely: no space survives, both fail
    have hstrip1 : pyStrip (b ++ ' ' :: (natDigits c ++ ':' :: natDigits v)) =
        natDigits c ++ ':' :: natDigits v := by
      unfold pyStrip
      rw [pyLStrip_append_of_nil hb, pyLStrip_space_cons,
        pyLStrip_of_no_space hws1, pyRStrip_of_no_space hws1]
    have hstrip2 : pyStrip (b ++ ' ' ::
        (natDigits c ++ ':' :: (natDigits v ++ '-' :: natDigits v))) =
        natDigits c ++ ':' :: (natDigits v ++ '-' :: natDigits v) := by
      unfold pyStrip
      rw [pyLStrip_append_of_nil hb, pyLStrip_space_cons,
        pyLStrip_of_no_space hws2, pyRStrip_of_no_space hws2]
    have e1 : parseReference (b ++ ' ' ::
        (natDigits c ++ ':' :: natDigits v)) = none := by
      unfold parseReference
      rw [hstrip1, if_neg hne1, splitLast_eq_none.mpr hsp1]
    have e2 : parseReference (b ++ ' ' ::
        (natDigits c ++ ':' :: (natDigits v ++ '-' :: natDigits v))) = none := by
      unfold parseReference
      rw [hstrip2, if_neg hne2, splitLast_eq_none.mpr hsp2]
    rw [e1, e2]
  · -- a non-space character survives in the book part
    have hstrip1 : pyStrip (b ++ ' ' :: (natDigits c ++ ':' :: natDigits v)) =
        pyLStrip b ++ ' ' :: (natDigits c ++ ':' :: natDigits v) := by
      unfold pyStrip
      rw [pyLStrip_append_of_ne hb, List.append_cons (pyLStrip b),
        pyRStrip_append hne1 hws1, ← List.append_cons]
    have hstrip2 : pyStrip (b ++ ' ' ::
        (natDigits c ++ ':' :: (natDigits v ++ '-' :: natDigits v))) =
        pyLStrip b ++ ' ' ::
          (natDigits c ++ ':' :: (natDigits v ++ '-' :: natDigits v)) := by
      unfold pyStrip
      rw [pyLStrip_append_of_ne hb, List.append_cons (pyLStrip b),
        pyRStrip_append hne2 hws2, ← List.append_cons]
    have e1 : parseReference (b ++ ' ' ::
        (natDigits c ++ ':' :: natDigits v)) =
        some (pyStrip (pyLStrip b), (c : Int), (v : Int), (v : Int)) := by
      unfold parseReference
      rw [hstrip1, if_neg (by simp), splitLast_append hsp1 (pyLStrip b)]
      simp only []
      rw [pyStrip_of_no_space hws1, splitFirst_append hcolonC]
      simp only []
      rw [pyInt_natDigits c]
      simp only []
      rw [pyStrip_natDigits v, splitFirst_eq_none.mpr hdashV]
      simp only []
      rw [pyInt_natDigits v]
    have e2 : parseReference (b ++ ' ' ::
        (natDigits c ++ ':' :: (natDigits v ++ '-' :: natDigits v))) =
        some (pyStrip (pyLStrip b), (c : Int), (v : Int), (v : Int)) := by
      unfold parseReference
      rw [hstrip2, if_neg (by simp), splitLast_append hsp2 (pyLStrip b)]
      simp only []
      rw [pyStrip_of_no_space hws2, splitFirst_append hcolonC]
      simp only []
      rw [pyInt_natDigits c]
      simp only []
      rw [pyStrip_of_no_space hwsVD, splitFirst_append hdashV]
      simp only []
      rw [pyStrip_natDigits v, pyInt_natDigits v]
    rw [e1, e2]

/-! ## Helper lemmas: store queries and ranges -/

theorem passageQuery_mem {db : List DBRow} {t : Str} {num : Nat}
    {chapter vs ve : Int} {r : DBRow} :
    r ∈ passageQuery db t num chapter vs ve ↔
      r ∈ db ∧ r.translation = t ∧ r.bookNum = num ∧ r.chapter = chapter ∧
        vs ≤ r.verse ∧ r.verse ≤ ve := by
  unfold passageQuery
  rw [List.mem_insertionSort, List.mem_filter, decide_eq_true_eq]

theorem passageQuery_sorted (db : List DBRow) (t : Str) (num : Nat)
    (chapter vs ve : Int) :
    (passageQuery db t num chapter vs ve).Pairwise passageLe :=
  List.sorted_insertionSort passageLe _

theorem parallelQuery_sorted (db : List DBRow) (tcs : List Str) (num : Nat)
    (chapter vs ve : Int) :
    (parallelQuery db tcs num chapter vs ve).Pairwise parallelLe :=
  List.sorted_insertionSort parallelLe _

theorem passageQuery_nil_of_out_of_order {db : List DBRow} {t : Str}
    {num : Nat} {chapter vs ve : Int} (h : ve < vs) :
    passageQuery db t num chapter vs ve = [] := by
  unfold passageQuery
  have : db.filter (fun r =>
      decide (r.translation = t ∧ r.bookNum = num ∧ r.chapter = chapter ∧
        vs ≤ r.verse ∧ r.verse ≤ ve)) = [] := by
    rw [List.filter_eq_nil_iff]
    intro r _
    rw [decide_eq_true_eq]
    rintro ⟨-, -, -, h1, h2⟩
    omega
  rw [this]
  rfl

theorem parallelQuery_nil_of_out_of_order {db : List DBRow} {tcs : List Str}
    {num : Nat} {chapter vs ve : Int} (h : ve < vs) :
    parallelQuery db tcs num chapter vs ve = [] := by
  unfold parallelQuery
  have : db.filter (fun r =>
      decide (r.translation ∈ tcs ∧ r.bookNum = num ∧ r.chapter = chapter ∧
        vs ≤ r.verse ∧ r.verse ≤ ve)) = [] := by
    rw [List.filter_eq_nil_iff]
    intro r _
    rw [decide_eq_true_eq]
    rintro ⟨-, -, -, h1, h2⟩
    omega
  rw [this]
  rfl

theorem pyRange_length (lo hi : Int) :
    (pyRange lo hi).length = (hi - lo).toNat := by
  unfold pyRange
  rw [List.length_map, List.length_range]

theorem pyRange_pairwise (lo hi : Int) :
    (pyRange lo hi).Pairwise (fun a b : Int => a ≤ b) := by
  unfold pyRange
  refine List.Pairwise.map _ (fun i j h => ?_) (List.pairwise_lt_range _)
  simp only [Int.ofNat_eq_coe]
  omega

/-! ## Helper lemmas: façade failure paths

Each of the following shows one `return []` branch of a façade; C1 is
their conjunction. -/

theorem get_passage_parse_none {canon : Canon} {store : VerseStore}
    {ref t : Str} (h : parseReference ref = none) :
    get_passage canon store ref t = [] := by
  unfold get_passage
  rw [h]

theorem get_passage_canon_nil (store : VerseStore) (ref t : Str) :
    get_passage [] store ref t = [] := by
  unfold get_passage
  cases parseReference ref with
  | none => rfl
  | some p =>
    obtain ⟨b, c, vs, ve⟩ := p
    simp

theorem get_passage_book_none {canon : Canon} {store : VerseStore}
    {ref t b : Str} {c vs ve : Int}
    (hp : parseReference ref = some (b, c, vs, ve))
    (hr : resolveBookNum (buildBookLookup canon) b = none) :
    get_passage canon store ref t = [] := by
  unfold get_passage
  rw [hp]
  by_cases hc : canon = []
  · simp [hc]
  · simp [hc, hr]

theorem get_passage_store_failed (canon : Canon) (ref t : Str) :
    get_passage canon .failed ref t = [] := by
  unfold get_passage
  cases parseReference ref with
  | none => rfl
  | some p =>
    obtain ⟨b, c, vs, ve⟩ := p
    by_cases hc : canon = []
    · simp [hc]
    · simp only [if_neg hc]
      cases resolveBookNum (buildBookLookup canon) b <;> rfl

theorem get_verse_window_parse_none {canon : Canon} {store : VerseStore}
    {ref t : Str} {before after : Int} (h : parseReferenceCtx ref = none) :
    get_verse_window canon store ref t before after = [] := by
  unfold get_verse_window
  rw [h]

theorem get_verse_window_canon_nil (store : VerseStore) (ref t : Str)
    (before after : Int) :
    get_verse_window [] store ref t before after = [] := by
  unfold get_verse_window
  cases parseReferenceCtx ref with
  | none => rfl
  | some p =>
    obtain ⟨b, c, v⟩ := p
    simp

theorem get_verse_window_book_none {canon : Canon} {store : VerseStore}
    {ref t b : Str} {c v before after : Int}
    (hp : parseReferenceCtx ref = some (b, c, v))
    (hr : resolveBookNum (buildBookLookup canon) b = none) :
    get_verse_window canon store ref t before after = [] := by
  unfold get_verse_window
  rw [hp]
  by_cases hc : canon = []
  · simp [hc]
  · simp [hc, hr]

theorem get_verse_window_store_failed (canon : Canon) (ref t : Str)
    (before after : Int) :
    get_verse_window canon .failed ref t before after = [] := by
  unfold get_verse_window
  cases parseReferenceCtx ref with
  | none => rfl
  | some p =>
    obtain ⟨b, c, v⟩ := p
    by_cases hc : canon = []
    · simp [hc]
    · simp only [if_neg hc]
      cases resolveBookNum (buildBookLookup canon) b <;> rfl

theorem get_parallel_parse_none {canon : Canon} {store : VerseStore}
    {ref : Str} {codes : List Str} (h : parseReferenceRange ref = none) :
    get_parallel_verses canon store ref codes = [] := by
  unfold get_parallel_verses
  by_cases hc : codes.map upperStr = []
  · simp [hc]
  · simp [hc, h]

theorem get_parallel_canon_nil (store : VerseStore) (ref : Str)
    (codes : List Str) :
    get_parallel_verses [] store ref codes = [] := by
  unfold get_parallel_verses
  by_cases hc : codes.map upperStr = []
  · simp [hc]
  · simp only [if_neg hc]
    cases parseReferenceRange ref with
    | none => rfl
    | some p =>
      obtain ⟨b, c, vs, ve⟩ := p
      simp

theorem get_parallel_book_none {canon : Canon} {store : VerseStore}
    {ref b : Str} {codes : List Str} {c vs ve : Int}
    (hp : parseReferenceRange ref = some (b, c, vs, ve))
    (hr : resolveBookNum (buildBookLookup canon) b = none) :
    get_parallel_verses canon store ref codes = [] := by
  unfold get_parallel_verses
  by_cases hc : codes.map upperStr = []
  · simp [hc]
  · simp only [if_neg hc]
    rw [hp]
    by_cases hcn : canon = []
    · simp [hcn]
    · simp [hcn, hr]

theorem get_parallel_store_failed (canon : Canon) (ref : Str)
    (codes : List Str) :
    get_parallel_verses canon .failed ref codes = [] := by
  unfold get_parallel_verses
  by_cases hc : codes.map upperStr = []
  · simp [hc]
  · simp only [if_neg hc]
    cases parseReferenceRange ref with
    | none => rfl
    | some p =>
      obtain ⟨b, c, vs, ve⟩ := p
      by_cases hcn : canon = []
      · simp [hcn]
      · simp only [if_neg hcn]
        cases resolveBookNum (buildBookLookup canon) b <;> rfl

theorem search_verses_store_failed (query : Str) (lim : Nat)
    (tc : Option Str) :
    search_verses .failed query lim tc = [] := by
  unfold search_verses
  by_cases hq : pyStrip query = []
  · simp [hq]
  · simp [hq]

/-! ## Helper lemmas: case normalization -/

theorem toNat_ofNat_valid {k : Nat} (h : k < 55296) :
    (Char.ofNat k).toNat = k := by
  unfold Char.ofNat
  rw [dif_pos (Or.inl h)]
  rfl

theorem pyUpperChar_idem (c : Char) :
    pyUpperChar (pyUpperChar c) = pyUpperChar c := by
  unfold pyUpperChar
  by_cases h : 97 ≤ c.toNat ∧ c.toNat ≤ 122
  · rw [if_pos h, if_neg]
    rw [toNat_ofNat_valid (show c.toNat - 32 < 55296 by omega)]
    omega
  · rw [if_neg h, if_neg h]

theorem upperStr_idem (s : Str) : upperStr (upperStr s) = upperStr s := by
  unfold upperStr
  rw [List.map_map]
  exact List.map_congr_left (fun c _ => pyUpperChar_idem c)

theorem map_upperStr_idem (l : List Str) :
    (l.map upperStr).map upperStr = l.map upperStr := by
  rw [List.map_map]
  exact List.map_congr_left (fun s _ => upperStr_idem s)

/-! ## Helper lemmas: façade result shapes -/

/-- `get_passage` either hits a failure branch (empty result) or reduces
to a store query on the resolved coordinates. -/
theorem get_passage_eq (canon : Canon) (store : VerseStore) (ref t : Str) :
    get_passage canon store ref t = [] ∨
      ∃ b c vs ve num db,
        parseReference ref = some (b, c, vs, ve) ∧
        canon ≠ [] ∧
        resolveBookNum (buildBookLookup canon) b = some num ∧
        store = .ok db ∧
        get_passage canon store ref t =
          passageQuery db (upperStr t) num c vs ve := by
  unfold get_passage
  cases hp : parseReference ref with
  | none => exact Or.inl rfl
  | some p =>
    obtain ⟨b, c, vs, ve⟩ := p
    by_cases hc : canon = []
    · exact Or.inl (by simp [hc])
    · cases hres : resolveBookNum (buildBookLookup canon) b with
      | none => exact Or.inl (by simp [hc, hres])
      | some num =>
        cases store with
        | failed => exact Or.inl (by simp [hc, hres])
        | ok db =>
          exact Or.inr ⟨b, c, vs, ve, num, db, rfl, hc, hres, rfl, by simp [hc, hres]⟩

/-- `get_verse_window` either hits a failure branch or reduces to a store
query on the clamped window. -/
theorem get_verse_window_eq (canon : Canon) (store : VerseStore)
    (ref t : Str) (before after : Int) :
    get_verse_window canon store ref t before after = [] ∨
      ∃ b c center num db,
        parseReferenceCtx ref = some (b, c, center) ∧
        canon ≠ [] ∧
        resolveBookNum (buildBookLookup canon) b = some num ∧
        store = .ok db ∧
        get_verse_window canon store ref t before after =
          passageQuery db (upperStr t) num c
            (windowStart center before) (windowEnd center after) := by
  unfold get_verse_window
  cases hp : parseReferenceCtx ref with
  | none => exact Or.inl rfl
  | some p =>
    obtain ⟨b, c, center⟩ := p
    by_cases hc : canon = []
    · exact Or.inl (by simp [hc])
    · cases hres : resolveBookNum (buildBookLookup canon) b with
      | none => exact Or.inl (by simp [hc, hres])
      | some num =>
        cases store with
        | failed => exact Or.inl (by simp [hc, hres])
        | ok db =>
          exact Or.inr ⟨b, c, center, num, db, rfl, hc, hres, rfl, by simp [hc, hres]⟩

/-- `get_parallel_verses` either hits a failure branch (including the
empty-fetch branch) or reduces to the per-verse regrouping of a
non-empty parallel store query. -/
theorem get_parallel_eq (canon : Canon) (store : VerseStore) (ref : Str)
    (codes : List Str) :
    get_parallel_verses canon store ref codes = [] ∨
      ∃ b c vs ve num db,
        parseReferenceRange ref = some (b, c, vs, ve) ∧
        canon ≠ [] ∧
        resolveBookNum (buildBookLookup canon) b = some num ∧
        store = .ok db ∧
        parallelQuery db (codes.map upperStr) num c vs ve ≠ [] ∧
        get_parallel_verses canon store ref codes =
          (pyRange vs (ve + 1)).map
            (fun v => ⟨(canonGet canon num).code, c, v,
              vmGet (buildVerseMap c
                (parallelQuery db (codes.map upperStr) num c vs ve)) v⟩) := by
  unfold get_parallel_verses
  by_cases htc : codes.map upperStr = []
  · exact Or.inl (by simp [htc])
  · rw [if_neg htc]
    cases hp : parseReferenceRange ref with
    | none => exact Or.inl rfl
    | some p =>
      obtain ⟨b, c, vs, ve⟩ := p
      by_cases hc : canon = []
      · exact Or.inl (by simp [hc])
      · cases hres : resolveBookNum (buildBookLookup canon) b with
        | none => exact Or.inl (by simp [hc, hres])
        | some num =>
          cases store with
          | failed => exact Or.inl (by simp [hc, hres])
          | ok db =>
            by_cases hrows :
                parallelQuery db (codes.map upperStr) num c vs ve = []
            · exact Or.inl (by simp [hc, hres, hrows])
            · exact Or.inr ⟨b, c, vs, ve, num, db, rfl, hc, hres, rfl, hrows,
                by simp [hc, hres, hrows]⟩

theorem dictGet_mem {d : List (Str × Nat)} {k : Str} {n : Nat}
    (h : dictGet d k = some n) : (k, n) ∈ d := by
  unfold dictGet at h
  cases hf : d.reverse.find? (fun p => decide (p.1 = k)) with
  | none => rw [hf] at h; cases h
  | some p =>
    rw [hf] at h
    have hp1' := List.find?_some hf
    rw [decide_eq_true_eq] at hp1'
    have hp1 : p.1 = k := hp1'
    have hp2 : p.2 = n := Option.some.inj h
    have hmem : p ∈ d := List.mem_reverse.mp (List.mem_of_find?_eq_some hf)
    have : p = (k, n) := by
      obtain ⟨p1, p2⟩ := p
      simp only at hp1 hp2
      rw [hp1, hp2]
    rwa [this] at hmem

/-! ## Claims -/

/-- C1: every query façade (`get_passage`, `get_verse_window`,
`get_parallel_verses`, `search_verses`) returns an empty list — and, being
a total function in this embedding, never raises — when the reference
fails to parse, the book token cannot be resolved, the canon mapping is
empty or absent, or the verse-store query fails. -/
theorem claim_C1_facades_fail_closed (canon : Canon) (store : VerseStore)
    (ref t query : Str) (codes : List Str) (lim : Nat) (otc : Option Str)
    (before after : Int) :
    (parseReference ref = none → get_passage canon store ref t = []) ∧
    (canon = [] → get_passage canon store ref t = []) ∧
    (∀ b c vs ve, parseReference ref = some (b, c, vs, ve) →
      resolveBookNum (buildBookLookup canon) b = none →
      get_passage canon store ref t = []) ∧
    (store = .failed → get_passage canon store ref t = []) ∧
    (parseReferenceCtx ref = none →
      get_verse_window canon store ref t before after = []) ∧
    (canon = [] → get_verse_window canon store ref t before after = []) ∧
    (∀ b c v, parseReferenceCtx ref = some (b, c, v) →
      resolveBookNum (buildBookLookup canon) b = none →
      get_verse_window canon store ref t before after = []) ∧
    (store = .failed → get_verse_window canon store ref t before after = []) ∧
    (parseReferenceRange ref = none →
      get_parallel_verses canon store ref codes = []) ∧
    (canon = [] → get_parallel_verses canon store ref codes = []) ∧
    (∀ b c vs ve, parseReferenceRange ref = some (b, c, vs, ve) →
      resolveBookNum (buildBookLookup canon) b = none →
      get_parallel_verses canon store ref codes = []) ∧
    (store = .failed → get_parallel_verses canon store ref codes = []) ∧
    (store = .failed → search_verses store query lim otc = []) := by
  refine ⟨fun h => get_passage_parse_none h,
    fun h => by subst h; exact get_passage_canon_nil store ref t,
    fun b c vs ve hp hr => get_passage_book_none hp hr,
    fun h => by subst h; exact get_passage_store_failed canon ref t,
    fun h => get_verse_window_parse_none h,
    fun h => by subst h; exact get_verse_window_canon_nil store ref t before after,
    fun b c v hp hr => get_verse_window_book_none hp hr,
    fun h => by subst h; exact get_verse_window_store_failed canon ref t before after,
    fun h => get_parallel_parse_none h,
    fun h => by subst h; exact get_parallel_canon_nil store ref codes,
    fun b c vs ve hp hr => get_parallel_book_none hp hr,
    fun h => by subst h; exact get_parallel_store_failed canon ref codes,
    fun h => by subst h; exact search_verses_store_failed query lim otc⟩

/-- C1 witness: the failure modes at concrete inputs — a reference with
no space separator, a misspelled book, a missing canon, and a failed
store. -/
theorem claim_C1_witness :
    get_passage testCanon (.ok johnDB) "Genesis1:1".toList "KJV".toList = [] ∧
    get_passage [] (.ok johnDB) "John 3:16".toList "KJV".toList = [] ∧
    get_passage testCanon (.ok johnDB) "Nehmiah 1:1".toList "KJV".toList = [] ∧
    get_verse_window testCanon .failed "Genesis 1:1".toList "KJV".toList 2 2 = [] ∧
    get_parallel_verses testCanon (.ok johnDB) "John 3".toList
      ["KJV".toList] = [] ∧
    search_verses .failed "light".toList 20 none = [] := by
  refine ⟨?_, ?_, ?_, ?_, ?_, ?_⟩
  · exact (claim_C1_facades_fail_closed testCanon (.ok johnDB)
      "Genesis1:1".toList "KJV".toList "".toList [] 20 none 2 2).1 (by decide)
  · exact (claim_C1_facades_fail_closed [] (.ok johnDB)
      "John 3:16".toList "KJV".toList "".toList [] 20 none 2 2).2.1 rfl
  · exact (claim_C1_facades_fail_closed testCanon (.ok johnDB)
      "Nehmiah 1:1".toList "KJV".toList "".toList [] 20 none 2 2).2.2.1
      "Nehmiah".toList 1 1 1 (by decide) (by decide)
  · exact (claim_C1_facades_fail_closed testCanon .failed
      "Genesis 1:1".toList "KJV".toList "".toList [] 20 none 2 2).2.2.2.2.2.2.2.1 rfl
  · exact (claim_C1_facades_fail_closed testCanon (.ok johnDB)
      "John 3".toList "KJV".toList "".toList ["KJV".toList] 20 none 2 2).2.2.2.2.2.2.2.2.1
      (by decide)
  · exact (claim_C1_facades_fail_closed testCanon .failed "".toList "".toList
      "light".toList [] 20 none 2 2).2.2.2.2.2.2.2.2.2.2.2.2 rfl

/-- C3: for every parsed centre verse, `get_verse_window` requests the
range from `max 1 (center - before)` to `center + after`; the lower
bound is never below 1, and every returned row's verse lies inside the
clamped window. -/
theorem claim_C3_window_clamped (canon : Canon) (store : VerseStore)
    (ref t b : Str) (before after c center : Int)
    (hp : parseReferenceCtx ref = some (b, c, center)) :
    windowStart center before = max 1 (center - before) ∧
    1 ≤ windowStart center before ∧
    ∀ r ∈ get_verse_window canon store ref t before after,
      windowStart center before ≤ r.verse ∧ r.verse ≤ windowEnd center after := by
  refine ⟨rfl, le_max_left 1 _, ?_⟩
  intro r hr
  rcases get_verse_window_eq canon store ref t before after with
    h | ⟨b', c', center', num, db, hp', hc, hres, hst, heq⟩
  · rw [h] at hr
    cases hr
  · rw [hp] at hp'
    obtain ⟨hb, hcc, hcen⟩ : b = b' ∧ c = c' ∧ center = center' := by
      have := Option.some.inj hp'
      exact ⟨congrArg Prod.fst this,
        congrArg Prod.fst (congrArg Prod.snd this),
        congrArg Prod.snd (congrArg Prod.snd this)⟩
    subst hb; subst hcc; subst hcen
    rw [heq] at hr
    have hm := passageQuery_mem.mp hr
    exact ⟨hm.2.2.2.2.1, hm.2.2.2.2.2⟩

/-- C3 witness: `"Genesis 1:1"` with `before = 2` clamps the window to
start at verse 1, and the returned rows hold verses 1..3 only. -/
theorem claim_C3_witness :
    (1 ≤ windowStart 1 2 ∧
      ∀ r ∈ get_verse_window testCanon (.ok genDB) "Genesis 1:1".toList
        "KJV".toList 2 2,
        windowStart 1 2 ≤ r.verse ∧ r.verse ≤ windowEnd 1 2) ∧
    get_verse_window testCanon (.ok genDB) "Genesis 1:1".toList
      "KJV".toList 2 2 =
      [⟨"KJV".toList, 1, "GEN".toList, 1, 1, "In the beginning".toList⟩,
       ⟨"KJV".toList, 1, "GEN".toList, 1, 2, "And the earth".toList⟩,
       ⟨"KJV".toList, 1, "GEN".toList, 1, 3, "And God said".toList⟩] := by
  constructor
  · have h := claim_C3_window_clamped testCanon (.ok genDB)
      "Genesis 1:1".toList "KJV".toList "Genesis".toList 2 2 1 1 (by decide)
    exact ⟨h.2.1, h.2.2⟩
  · decide

/-- C7: the verse-store accessor orders rows by verse ascending
(`ORDER BY verse` for passage/context) and secondarily by translation
code for the multi-translation parallel fetch (`ORDER BY verse,
translation_code`); consequently `get_passage` and `get_verse_window`
results, and `get_parallel_verses` record lists, are in ascending verse
order. -/
theorem claim_C7_result_ordering (canon : Canon) (store : VerseStore)
    (ref t : Str) (codes : List Str) (db : List DBRow) (tcs : List Str)
    (num : Nat) (chapter vs ve before after : Int) :
    (passageQuery db t num chapter vs ve).Pairwise passageLe ∧
    (parallelQuery db tcs num chapter vs ve).Pairwise parallelLe ∧
    (get_passage canon store ref t).Pairwise passageLe ∧
    (get_verse_window canon store ref t before after).Pairwise passageLe ∧
    (get_parallel_verses canon store ref codes).Pairwise
      (fun a b : ParallelRow => a.verse ≤ b.verse) := by
  refine ⟨passageQuery_sorted db t num chapter vs ve,
    parallelQuery_sorted db tcs num chapter vs ve, ?_, ?_, ?_⟩
  · rcases get_passage_eq canon store ref t with
      h | ⟨b, c, vs', ve', num', db', _, _, _, _, heq⟩
    · rw [h]; exact List.Pairwise.nil
    · rw [heq]; exact passageQuery_sorted db' (upperStr t) num' c vs' ve'
  · rcases get_verse_window_eq canon store ref t before after with
      h | ⟨b, c, center, num', db', _, _, _, _, heq⟩
    · rw [h]; exact List.Pairwise.nil
    · rw [heq]
      exact passageQuery_sorted db' (upperStr t) num' c
        (windowStart center before) (windowEnd center after)
  · rcases get_parallel_eq canon store ref codes with
      h | ⟨b, c, vs', ve', num', db', _, _, _, _, _, heq⟩
    · rw [h]; exact List.Pairwise.nil
    · rw [heq, List.pairwise_map]
      exact pyRange_pairwise vs' (ve' + 1)

/-- C8: an out-of-order verse range (`verse_start > verse_end`) is
accepted by the parser and is not an error: both `get_passage` and
`get_parallel_verses` return an empty result set for it. -/
theorem claim_C8_out_of_order_empty (canon : Canon) (store : VerseStore)
    (ref t b : Str) (codes : List Str) (c vs ve : Int) :
    (parseReference ref = some (b, c, vs, ve) → ve < vs →
      get_passage canon store ref t = []) ∧
    (parseReferenceRange ref = some (b, c, vs, ve) → ve < vs →
      get_parallel_verses canon store ref codes = []) ∧
    parseReference "John 3:18-16".toList = some ("John".toList, 3, 18, 16) := by
  refine ⟨?_, ?_, by decide⟩
  · intro hp hlt
    rcases get_passage_eq canon store ref t with
      h | ⟨b', c', vs', ve', num, db, hp', hc, hres, hst, heq⟩
    · exact h
    · rw [hp] at hp'
      have hpp := Option.some.inj hp'
      have hvs : vs = vs' := congrArg Prod.fst
        (congrArg Prod.snd (congrArg Prod.snd hpp))
      have hve : ve = ve' := congrArg Prod.snd
        (congrArg Prod.snd (congrArg Prod.snd hpp))
      rw [heq]
      exact passageQuery_nil_of_out_of_order (by omega)
  · intro hp hlt
    rcases get_parallel_eq canon store ref codes with
      h | ⟨b', c', vs', ve', num, db, hp', hc, hres, hst, hrows, heq⟩
    · exact h
    · rw [hp] at hp'
      have hpp := Option.some.inj hp'
      have hvs : vs = vs' := congrArg Prod.fst
        (congrArg Prod.snd (congrArg Prod.snd hpp))
      have hve : ve = ve' := congrArg Prod.snd
        (congrArg Prod.snd (congrArg Prod.snd hpp))
      exact absurd (parallelQuery_nil_of_out_of_order (by omega)) hrows

/-- C8 witness: `"John 3:18-16"` parses (start 18 > end 16) and both
range façades degrade to the empty result on a store that does hold
John 3:16-18. -/
theorem claim_C8_witness :
    get_passage testCanon (.ok john3DB) "John 3:18-16".toList
      "KJV".toList = [] ∧
    get_parallel_verses testCanon (.ok john3DB) "John 3:18-16".toList
      ["KJV".toList] = [] := by
  constructor
  · exact (claim_C8_out_of_order_empty testCanon (.ok john3DB)
      "John 3:18-16".toList "KJV".toList "John".toList [] 3 18 16).1
      (by decide) (by decide)
  · exact (claim_C8_out_of_order_empty testCanon (.ok john3DB)
      "John 3:18-16".toList "KJV".toList "John".toList ["KJV".toList]
      3 18 16).2.1 (by decide) (by decide)

/-- C10: translation codes are upper-cased by every façade before
querying, so supplying `t` and `t.upper()` (or a code list and its
upper-cased image) gives identical results. -/
theorem claim_C10_translation_case_insensitive (canon : Canon)
    (store : VerseStore) (ref t : Str) (codes : List Str)
    (before after : Int) :
    get_passage canon store ref t =
      get_passage canon store ref (upperStr t) ∧
    get_verse_window canon store ref t before after =
      get_verse_window canon store ref (upperStr t) before after ∧
    get_parallel_verses canon store ref codes =
      get_parallel_verses canon store ref (codes.map upperStr) := by
  refine ⟨?_, ?_, ?_⟩
  · unfold get_passage
    rw [upperStr_idem]
  · unfold get_verse_window
    rw [upperStr_idem]
  · unfold get_parallel_verses
    rw [map_upperStr_idem]

/-- C6: the resolver tries the token exactly, then the lowercased token;
for any lookup whose keys are case-consistent (the lowercase image of
every key maps like the key itself — true of every lookup
`_build_book_lookup` produces from a canon with case-distinct books),
two tokens equal up to letter case resolve to the same book number. -/
theorem claim_C6_case_insensitive_book_resolution (canon : Canon)
    (t1 t2 : Str)
    (hcc : ∀ p ∈ buildBookLookup canon,
      dictGet (buildBookLookup canon) (lowerStr p.1) =
        dictGet (buildBookLookup canon) p.1)
    (hl : lowerStr t1 = lowerStr t2) :
    resolveBookNum (buildBookLookup canon) t1 =
      resolveBookNum (buildBookLookup canon) t2 := by
  have key : ∀ t : Str, resolveBookNum (buildBookLookup canon) t =
      dictGet (buildBookLookup canon) (lowerStr t) := by
    intro t
    unfold resolveBookNum
    cases h : dictGet (buildBookLookup canon) t with
    | none => rfl
    | some n =>
      have hmem := dictGet_mem h
      have hth := hcc (t, n) hmem
      rw [h] at hth
      exact hth.symm
  rw [key t1, key t2, hl]

/-- C6 witness: `"Genesis"` and `"genesis"` resolve to the same book
number (1) in the concrete canon. -/
theorem claim_C6_witness :
    resolveBookNum (buildBookLookup testCanon) "Genesis".toList =
      resolveBookNum (buildBookLookup testCanon) "genesis".toList ∧
    resolveBookNum (buildBookLookup testCanon) "genesis".toList = some 1 :=
  ⟨claim_C6_case_insensitive_book_resolution testCanon "Genesis".toList
    "genesis".toList (by decide) (by decide), by decide⟩

/-- C2 counterexample: for `"John 3:16"` over `["KJV", "BSB"]` with only
KJV stored, the record returned by `get_parallel_verses` does NOT carry
the placeholder as its BSB text — the BSB key is simply absent from the
per-verse map, so its lookup is `none`, not the placeholder. -/
theorem claim_C2_counterexample :
    get_parallel_verses testCanon (.ok johnDB) "John 3:16".toList
      ["KJV".toList, "BSB".toList] =
      [⟨"JHN".toList, 3, 16, [("KJV".toList, kjvJohn316)]⟩] ∧
    textsGet [("KJV".toList, kjvJohn316)] "BSB".toList = none ∧
    textsGet [("KJV".toList, kjvJohn316)] "BSB".toList ≠
      some missingPlaceholder := by
  exact ⟨by decide, by decide, by decide⟩

/-- C2 amended: `get_parallel_verses` returns exactly one record for
verse 16 with the KJV text present and no BSB entry in its
per-translation map; the placeholder "(missing in this translation)" is
substituted for the missing translation only at display time by
`print_parallel` — in general, whenever a record lacks a translation,
the displayed text is the placeholder. -/
theorem claim_C2_placeholder_at_display :
    (∀ (texts : List (Str × Str)) (code : Str), textsGet texts code = none →
      parallelDisplayText texts code = missingPlaceholder) ∧
    get_parallel_verses testCanon (.ok johnDB) "John 3:16".toList
      ["KJV".toList, "BSB".toList] =
      [⟨"JHN".toList, 3, 16, [("KJV".toList, kjvJohn316)]⟩] ∧
    textsGet [("KJV".toList, kjvJohn316)] "KJV".toList = some kjvJohn316 ∧
    textsGet [("KJV".toList, kjvJohn316)] "BSB".toList = none ∧
    parallelDisplayText [("KJV".toList, kjvJohn316)] "BSB".toList =
      missingPlaceholder := by
  refine ⟨?_, by decide, by decide, by decide, by decide⟩
  intro texts code h
  unfold parallelDisplayText
  rw [h]
  rfl

/-- C2 witness for the general placeholder clause. -/
theorem claim_C2_witness :
    parallelDisplayText [] "BSB".toList = missingPlaceholder :=
  claim_C2_placeholder_at_display.1 [] "BSB".toList rfl

/-- C9: once the parallel façade's resolution pipeline succeeds, the
result is empty exactly when the store fetch returns no rows; a
non-empty result for a parsed range `vs ≤ ve` holds exactly one record
per verse number from `vs` to `ve` inclusive, in ascending verse order
(its verse projections are the integer range `[vs..ve]`), including
records for verses with text in no requested translation. -/
theorem claim_C9_one_record_per_verse (canon : Canon) (store : VerseStore)
    (ref b : Str) (codes : List Str) (c vs ve : Int) (num : Nat)
    (db : List DBRow)
    (hp : parseReferenceRange ref = some (b, c, vs, ve))
    (hc : canon ≠ [])
    (hres : resolveBookNum (buildBookLookup canon) b = some num)
    (hst : store = .ok db)
    (htc : codes.map upperStr ≠ []) :
    (parallelQuery db (codes.map upperStr) num c vs ve = [] →
      get_parallel_verses canon store ref codes = []) ∧
    (get_parallel_verses canon store ref codes ≠ [] → vs ≤ ve →
      (get_parallel_verses canon store ref codes).map (fun r => r.verse) =
        pyRange vs (ve + 1) ∧
      (get_parallel_verses canon store ref codes).length =
        (ve - vs).toNat + 1) := by
  subst hst
  constructor
  · intro hrows
    simp [get_parallel_verses, htc, hp, hc, hres, hrows]
  · intro hne hle
    rcases get_parallel_eq canon (.ok db) ref codes with
      h | ⟨b', c', vs', ve', num', db', hp', hc', hres', hst', hrows', heq⟩
    · exact absurd h hne
    · rw [hp] at hp'
      have hpp := Option.some.inj hp'
      have hb : b = b' := congrArg Prod.fst hpp
      have hcc : c = c' := congrArg Prod.fst (congrArg Prod.snd hpp)
      have hvs : vs = vs' := congrArg Prod.fst
        (congrArg Prod.snd (congrArg Prod.snd hpp))
      have hve : ve = ve' := congrArg Prod.snd
        (congrArg Prod.snd (congrArg Prod.snd hpp))
      subst hb; subst hcc; subst hvs; subst hve
      have hdb : db = db' := VerseStore.ok.inj hst'
      subst hdb
      rw [heq]
      constructor
      · rw [List.map_map]
        have : ((fun r : ParallelRow => r.verse) ∘
            (fun v => (⟨(canonGet canon num').code, c,  v,
              vmGet (buildVerseMap c
                (parallelQuery db (codes.map upperStr) num' c vs ve)) v⟩ :
                ParallelRow))) = id := rfl
        rw [this, List.map_id]
      · rw [List.length_map, pyRange_length]
        omega

/-- C9 witness: `"John 3:16-18"` over a store with KJV John 3:16-18
yields three records with verse projections `[16, 17, 18]` even though
BSB has no text there. -/
theorem claim_C9_witness :
    (get_parallel_verses testCanon (.ok john3DB) "John 3:16-18".toList
      ["KJV".toList, "BSB".toList]).map (fun r => r.verse) =
      pyRange 16 19 ∧
    (get_parallel_verses testCanon (.ok john3DB) "John 3:16-18".toList
      ["KJV".toList, "BSB".toList]).length = 3 := by
  have h := (claim_C9_one_record_per_verse testCanon (.ok john3DB)
    "John 3:16-18".toList "John".toList ["KJV".toList, "BSB".toList]
    3 16 18 43 john3DB (by decide) (by decide) (by decide) rfl
    (by decide)).2 (by decide) (by decide)
  refine ⟨h.1, ?_⟩
  rw [h.2]
  decide

/-- C4: `"John 3:16-18"` parses to (John, 3, 16, 18) and `"John 3:16"`
to (John, 3, 16, 16); the duplicated range parser of parallel.py
computes the same function as search.py's; and for every book token and
numerals c, v, the references `"b c:v"` and `"b c:v-v"` parse to
identical structured results — a single verse and a to-itself range both
denote the inclusive range of length 1. -/
theorem claim_C4_single_equals_self_range :
    parseReference "John 3:16-18".toList =
      some ("John".toList, 3, 16, 18) ∧
    parseReference "John 3:16".toList = some ("John".toList, 3, 16, 16) ∧
    (∀ ref, parseReferenceRange ref = parseReference ref) ∧
    ∀ (b : Str) (c v : Nat),
      parseReference (b ++ ' ' :: (natDigits c ++ ':' :: natDigits v)) =
        parseReference (b ++ ' ' ::
          (natDigits c ++ ':' :: (natDigits v ++ '-' :: natDigits v))) :=
  ⟨by decide, by decide, parseReferenceRange_eq_parseReference,
    parse_single_eq_self_range⟩

/-- The malformed-reference conditions enumerated by the spec: empty
input, no space separator, no colon in the chapter:verse tail, or a
non-integer chapter / verse / verse-range component. -/
def MalformedReference (ref : Str) : Prop :=
  pyStrip ref = [] ∨
  ' ' ∉ pyStrip ref ∨
  ∃ bookRaw cvRaw, splitLast ' ' (pyStrip ref) = some (bookRaw, cvRaw) ∧
    (':' ∉ pyStrip cvRaw ∨
     ∃ chapStr versePart,
       splitFirst ':' (pyStrip cvRaw) = some (chapStr, versePart) ∧
       (pyInt chapStr = none ∨
        (∃ s e, splitFirst '-' (pyStrip versePart) = some (s, e) ∧
          (pyInt (pyStrip s) = none ∨ pyInt (pyStrip e) = none)) ∨
        ('-' ∉ pyStrip versePart ∧ pyInt (pyStrip versePart) = none)))

/-- C5: the reference parser fails exactly on the malformed-reference
conditions (empty input, no space, no colon in the tail, non-integer
numeric component) — witnessed on the spec's concrete inputs — and never
fails on a well-formed but semantically nonexistent reference such as
`"Genesis 999:999"`. -/
theorem claim_C5_malformed_reference_exactly :
    (∀ ref, parseReference ref = none ↔ MalformedReference ref) ∧
    parseReference "".toList = none ∧
    parseReference "Genesis1:1".toList = none ∧
    parseReference "Genesis 1 1".toList = none ∧
    parseReference "Genesis x:1".toList = none ∧
    parseReference "Genesis 1:x".toList = none ∧
    parseReference "Genesis 1:1-x".toList = none ∧
    parseReference "Genesis 999:999".toList =
      some ("Genesis".toList, 999, 999, 999) := by
  refine ⟨?_, by decide, by decide, by decide, by decide, by decide,
    by decide, by decide⟩
  intro ref
  unfold parseReference MalformedReference
  by_cases h0 : pyStrip ref = []
  · simp [h0]
  · rw [if_neg h0]
    cases hsl : splitLast ' ' (pyStrip ref) with
    | none =>
      have hnm : ' ' ∉ pyStrip ref := splitLast_eq_none.mp hsl
      simp [h0, hsl, hnm]
    | some p =>
      obtain ⟨bookRaw, cvRaw⟩ := p
      have hsp : ' ' ∈ pyStrip ref := by
        by_contra hn
        exact absurd (splitLast_eq_none.mpr hn) (by rw [hsl]; simp)
      cases hsf : splitFirst ':' (pyStrip cvRaw) with
      | none =>
        have hnc : ':' ∉ pyStrip cvRaw := splitFirst_eq_none.mp hsf
        simp only [hsl, hsf]
        refine iff_of_true trivial (Or.inr (Or.inr ?_))
        exact ⟨bookRaw, cvRaw, rfl, Or.inl hnc⟩
      | some q =>
        obtain ⟨chapStr, versePart⟩ := q
        have hcl : ':' ∈ pyStrip cvRaw := by
          by_contra hn
          exact absurd (splitFirst_eq_none.mpr hn) (by rw [hsf]; simp)
        cases hci : pyInt chapStr with
        | none =>
          simp only [hsl, hsf, hci]
          refine iff_of_true trivial (Or.inr (Or.inr ?_))
          exact ⟨bookRaw, cvRaw, rfl,
            Or.inr ⟨chapStr, versePart, hsf, Or.inl hci⟩⟩
        | some ch =>
          cases hsd : splitFirst '-' (pyStrip versePart) with
          | some r =>
            obtain ⟨s', e'⟩ := r
            have hdm : '-' ∈ pyStrip versePart := by
              by_contra hn
              exact absurd (splitFirst_eq_none.mpr hn) (by rw [hsd]; simp)
            cases hs : pyInt (pyStrip s') with
            | none =>
              simp only [hsl, hsf, hci, hsd, hs]
              refine iff_of_true trivial (Or.inr (Or.inr ?_))
              exact ⟨bookRaw, cvRaw, rfl, Or.inr ⟨chapStr, versePart, hsf,
                Or.inr (Or.inl ⟨s', e', hsd, Or.inl hs⟩)⟩⟩
            | some a =>
              cases he : pyInt (pyStrip e') with
              | none =>
                simp only [hsl, hsf, hci, hsd, hs, he]
                refine iff_of_true trivial (Or.inr (Or.inr ?_))
                exact ⟨bookRaw, cvRaw, rfl, Or.inr ⟨chapStr, versePart, hsf,
                  Or.inr (Or.inl ⟨s', e', hsd, Or.inr he⟩)⟩⟩
              | some b2 =>
                simp [h0, hsp, hsl, hsf, hcl, hci, hsd, hdm, hs, he]
          | none =>
            have hdn : '-' ∉ pyStrip versePart := splitFirst_eq_none.mp hsd
            cases hv : pyInt (pyStrip versePart) with
            | none =>
              simp only [hsl, hsf, hci, hsd, hv]
              refine iff_of_true trivial (Or.inr (Or.inr ?_))
              exact ⟨bookRaw, cvRaw, rfl, Or.inr ⟨chapStr, versePart, hsf,
                Or.inr (Or.inr ⟨hdn, hv⟩)⟩⟩
            | some vv => simp [h0, hsp, hsl, hsf, hcl, hci, hsd, hdn, hv]

end SBC

-- sanity examples for the embedding
example : SBC.get_passage SBC.testCanon (.ok SBC.john3DB) "John 3:16-17".toList
    "kjv".toList =
    [⟨"KJV".toList, 43, "JHN".toList, 3, 16, SBC.kjvJohn316⟩,
     ⟨"KJV".toList, 43, "JHN".toList, 3, 17, "For God sent not".toList⟩] := by
  decide

example : SBC.get_verse_window SBC.testCanon (.ok SBC.genDB) "Genesis 1:1".toList
    "KJV".toList 2 2 = SBC.genDB.take 3 := by decide

example : SBC.get_parallel_verses SBC.testCanon (.ok SBC.johnDB) "John 3:16".toList
    ["KJV".toList, "BSB".toList] =
    [⟨"JHN".toList, 3, 16, [("KJV".toList, SBC.kjvJohn316)]⟩] := by decide

example : SBC.resolveBookNum (SBC.buildBookLookup SBC.testCanon)
    "genesis".toList = some 1 := by decide

example : SBC.search_verses (.ok SBC.genDB) "god".toList 20 none =
    [⟨"KJV".toList, 1, "GEN".toList, 1, 3, "And God said".toList⟩,
     ⟨"KJV".toList, 1, "GEN".toList, 1, 4, "And God saw".toList⟩] := by decide

-- sanity examples for the parser embedding
example : SBC.parseReference "John 3:16-18".toList =
    some ("John".toList, 3, 16, 18) := by decide
example : SBC.parseReference "Gen 1:1".toList =
    some ("Gen".toList, 1, 1, 1) := by decide
example : SBC.parseReference "Genesis1:1".toList = none := by decide
example : SBC.parseReference "Genesis 1 1".toList = none := by decide
example : SBC.parseReference "".toList = none := by decide
example : SBC.parseReference "1 Samuel 2:3".toList =
    some ("1 Samuel".toList, 2, 3, 3) := by decide
example : SBC.parseReferenceCtx "John 3:16".toList =
    some ("John".toList, 3, 16) := by decide
